import Mathlib

/-!
Verification of the SAMPLER_CNA looper core (crearttech).

Shallow embedding of:
  * `LooperStateMachine` (src/unnamed/part_000, sampler_state_machine.h),
  * `OverdubLooper`      (src/sampler_engine.h),
  * `ClockSync`          (src/sampler_sync.h).

Conventions of the embedding:
  * `float` samples are modelled as exact rationals (`ℚ`); the claims under
    consideration are about which buffer cells are read/written and about
    control flow, not about floating-point rounding of sample values.
  * `size_t` arithmetic is modelled in `ℕ`, except in `OverdubLooper::SetLoopRegion`
    where the source relies on unsigned wraparound: there the subtraction is
    taken modulo `2^64` (`sizeT`), exactly as a 64-bit `size_t` computes it.
  * `tanhf`-based soft clipping is transcendental; the per-sample `Process`
    function is parametrised by the clip function `clip : ℚ → ℚ` (the source
    instantiates it with `tanhf (x * 0.7) / 0.7`).  No claim depends on the
    values this function produces.
  * raw-pointer `memcpy` in the undo history copies `loop_length` samples from
    offset `loop_start` with no wraparound; the embedding does the same.
-/

namespace Sampler

/-! ## State machine (sampler_state_machine.h) -/

/-- `enum class LooperState`. -/
inductive LooperState where
  | IDLE
  | RECORDING_INITIAL
  | PLAYING
  | OVERDUBBING
  | PAUSED
  deriving DecidableEq, Fintype, Repr

/-- `enum class LooperEvent`. -/
inductive LooperEvent where
  | PRESS_REC
  | RELEASE_REC
  | PRESS_PLAY
  | PRESS_STOP
  | PRESS_PAUSE
  | LOOP_ENDED
  | CLEAR_LOOP
  deriving DecidableEq, Fintype, Repr

open LooperState LooperEvent

/-- The mutable part of `LooperStateMachine`: current and previous state. -/
structure SM where
  current : LooperState
  previous : LooperState
  deriving DecidableEq, Repr

/-- `LooperStateMachine::CanTransition`. -/
def canTransition (from_ to_ : LooperState) : Bool :=
  if to_ = IDLE then true
  else
    match from_ with
    | IDLE => to_ = RECORDING_INITIAL
    | RECORDING_INITIAL => to_ = PLAYING ∨ to_ = IDLE
    | PLAYING => to_ = OVERDUBBING ∨ to_ = PAUSED ∨ to_ = IDLE
    | OVERDUBBING => to_ = PLAYING ∨ to_ = IDLE
    | PAUSED => to_ = PLAYING ∨ to_ = IDLE

/-- `LooperStateMachine::GetNextState`. -/
def getNextState (current : LooperState) (event : LooperEvent) : LooperState :=
  match current with
  | IDLE =>
      if event = PRESS_REC then RECORDING_INITIAL else current
  | RECORDING_INITIAL =>
      if event = RELEASE_REC then PLAYING
      else if event = PRESS_STOP then IDLE
      else current
  | PLAYING =>
      if event = PRESS_REC then OVERDUBBING
      else if event = PRESS_PAUSE then PAUSED
      else if event = PRESS_STOP ∨ event = CLEAR_LOOP then IDLE
      else current
  | OVERDUBBING =>
      if event = RELEASE_REC then PLAYING
      else if event = PRESS_STOP then IDLE
      else current
  | PAUSED =>
      if event = PRESS_PLAY ∨ event = PRESS_PAUSE then PLAYING
      else if event = PRESS_STOP ∨ event = CLEAR_LOOP then IDLE
      else current

/-- `LooperStateMachine::TransitionTo` (the `OnEnter`/`OnExit` hooks are
empty in the source class itself). Returns the updated machine and whether
the transition occurred. -/
def transitionTo (m : SM) (new_state : LooperState) : SM × Bool :=
  if canTransition m.current new_state then
    (⟨new_state, m.current⟩, true)
  else
    (m, false)

/-- `LooperStateMachine::ProcessEvent`. -/
def processEvent (m : SM) (event : LooperEvent) : SM × Bool :=
  let new_state := getNextState m.current event
  if new_state = m.current then
    (m, false)
  else
    transitionTo m new_state

/-- The transition table of spec §4.1, written from the spec's words:
`some next` for a listed `(state, event)` pair, `none` for an unlisted one. -/
def specTableNext : LooperState → LooperEvent → Option LooperState
  | IDLE, PRESS_REC => some RECORDING_INITIAL
  | RECORDING_INITIAL, RELEASE_REC => some PLAYING
  | RECORDING_INITIAL, PRESS_STOP => some IDLE
  | PLAYING, PRESS_REC => some OVERDUBBING
  | PLAYING, PRESS_PAUSE => some PAUSED
  | PLAYING, PRESS_STOP => some IDLE
  | PLAYING, CLEAR_LOOP => some IDLE
  | OVERDUBBING, RELEASE_REC => some PLAYING
  | OVERDUBBING, PRESS_STOP => some IDLE
  | PAUSED, PRESS_PLAY => some PLAYING
  | PAUSED, PRESS_PAUSE => some PLAYING
  | PAUSED, PRESS_STOP => some IDLE
  | PAUSED, CLEAR_LOOP => some IDLE
  | _, _ => none

end Sampler

namespace Sampler

/-! ## Loop engine (sampler_engine.h, class OverdubLooper) -/

/-- `2^64`: the modulus of 64-bit `size_t` arithmetic. -/
def sizeT : ℕ := 2 ^ 64

/-- `OverdubLooper::CROSSFADE_SAMPLES`. -/
def CROSSFADE_SAMPLES : ℕ := 128

/-- `OverdubLooper::MAX_UNDO_LEVELS`. -/
def MAX_UNDO_LEVELS : ℕ := 3

/-- The member state of `OverdubLooper`.  The sample buffer and the undo
snapshot buffers are modelled as total functions `ℕ → ℚ` (only indices below
`buffer_length` are meaningful; `undo_buffers` only uses slots below
`undo_count ≤ MAX_UNDO_LEVELS`). -/
structure Looper where
  buffer : ℕ → ℚ
  buffer_length : ℕ
  loop_start : ℕ
  loop_length : ℕ
  play_head : ℚ
  rec_head : ℕ
  is_empty : Bool
  is_recording : Bool
  reverse : Bool
  overdubbing : Bool
  playback_speed : ℚ
  quantize : Bool
  quantize_beats : ℕ
  bpm : ℚ
  samples_per_beat : ℕ
  undo_enabled : Bool
  undo_count : ℕ
  undo_buffers : ℕ → ℕ → ℚ
  undo_write_index : ℕ
  undo_read_index : ℕ
  undo_depth : ℕ
  redo_depth : ℕ

/-- `OverdubLooper::StartRecording`. -/
def startRecording (st : Looper) : Looper :=
  { st with
    rec_head := 0
    play_head := 0
    is_empty := false
    is_recording := true
    overdubbing := false }

/-- `OverdubLooper::SetLoopRegion`.  The source computes
`_loop_length = end_sample - start_sample + 1` in `size_t`, so the
subtraction wraps modulo `2^64`; for `start_sample ≤ end_sample + 1` the
expression below equals that value exactly (arguments are `size_t` values,
i.e. below `sizeT`). -/
def setLoopRegion (st : Looper) (start_sample end_sample : ℕ) : Looper :=
  let raw := ((end_sample + sizeT + 1) - start_sample) % sizeT
  let len := if raw < 1 then 1 else raw
  { st with
    loop_start := start_sample
    loop_length := len
    play_head := if (len : ℚ) ≤ st.play_head then 0 else st.play_head }

/-- `OverdubLooper::SetQuantize`. -/
def setQuantize (st : Looper) (enable : Bool) (beats : ℕ) : Looper :=
  { st with
    quantize := enable
    quantize_beats := if 0 < beats then beats else 4 }

/-- `OverdubLooper::QuantizeLoopRegion` (returns `(out_start, out_end)`). -/
def quantizeLoopRegion (st : Looper) (start_sample end_sample : ℕ) : ℕ × ℕ :=
  if st.quantize = false ∨ st.samples_per_beat = 0 then
    (start_sample, end_sample)
  else
    let spb := st.samples_per_beat
    let start_beat := (start_sample + spb / 2) / spb
    let out_start := start_beat * spb
    let recorded_length := if start_sample < end_sample then end_sample - start_sample else 0
    let length_in_beats := (recorded_length + spb / 2) / spb
    let length_in_beats :=
      if length_in_beats < st.quantize_beats then st.quantize_beats
      else ((length_in_beats + st.quantize_beats / 2) / st.quantize_beats) * st.quantize_beats
    (out_start, out_start + length_in_beats * spb)

/-- `OverdubLooper::SaveUndoState`: `memcpy` of `loop_length` samples from
`_buffer + _loop_start` into the slot at the write cursor (raw pointer copy,
no wraparound), then advance the write cursor, realign the read cursor, and
saturate the depth at `undo_count`. -/
def saveUndoState (st : Looper) : Looper :=
  if st.undo_enabled = false ∨ st.undo_count = 0 then st
  else
    let w := (st.undo_write_index + 1) % st.undo_count
    { st with
      undo_buffers := fun slot j =>
        if slot = st.undo_write_index ∧ j < st.loop_length then
          st.buffer (st.loop_start + j)
        else st.undo_buffers slot j
      undo_write_index := w
      undo_read_index := w
      undo_depth := if st.undo_depth < st.undo_count then st.undo_depth + 1 else st.undo_depth }

/-- `OverdubLooper::Undo`.  Returns the updated state and the `bool` result.
The read-cursor step `(_undo_read_index - 1 + _undo_count) % _undo_count`
equals `(r + count - 1) % count` for every `size_t` value `r < count`. -/
def undoOp (st : Looper) : Looper × Bool :=
  if st.undo_enabled = false ∨ st.undo_depth = 0 then (st, false)
  else
    let r := (st.undo_read_index + st.undo_count - 1) % st.undo_count
    ({ st with
       undo_read_index := r
       buffer := fun x =>
         if st.loop_start ≤ x ∧ x < st.loop_start + st.loop_length then
           st.undo_buffers r (x - st.loop_start)
         else st.buffer x
       undo_depth := st.undo_depth - 1
       redo_depth := if st.redo_depth < MAX_UNDO_LEVELS - 1 then st.redo_depth + 1 else st.redo_depth },
     true)

/-- `OverdubLooper::Redo`. -/
def redoOp (st : Looper) : Looper × Bool :=
  if st.undo_enabled = false ∨ st.redo_depth = 0 then (st, false)
  else
    let r := (st.undo_read_index + 1) % st.undo_count
    ({ st with
       undo_read_index := r
       buffer := fun x =>
         if st.loop_start ≤ x ∧ x < st.loop_start + st.loop_length then
           st.undo_buffers r (x - st.loop_start)
         else st.buffer x
       undo_depth := st.undo_depth + 1
       redo_depth := st.redo_depth - 1 },
     true)

/-- `OverdubLooper::GetInterpolatedSample`.  `static_cast<size_t>(position)`
truncates the (non-negative) float position toward zero, i.e. takes its
floor. -/
def getInterpolatedSample (st : Looper) (position : ℚ) : ℚ :=
  let idx0 := (⌊position⌋).toNat
  let idx1 := (idx0 + 1) % st.loop_length
  let frac := position - (idx0 : ℚ)
  let actual_idx0 := (st.loop_start + idx0) % st.buffer_length
  let actual_idx1 := (st.loop_start + idx1) % st.buffer_length
  st.buffer actual_idx0 * (1 - frac) + st.buffer actual_idx1 * frac

/-- `OverdubLooper::Process`, parametrised by the soft-clip function
(`SoftClip(x) = tanhf(x * 0.7f) / 0.7f` in the source, a transcendental
function no claim depends on).  Returns the updated state and the output
sample. -/
def process (clip : ℚ → ℚ) (st : Looper) (input : ℚ) : Looper × ℚ :=
  if st.is_recording then
    let buf := Function.update st.buffer st.rec_head input
    let rh := st.rec_head + 1
    if st.buffer_length ≤ rh then
      ({ st with buffer := buf, rec_head := 0, is_recording := false }, input)
    else
      ({ st with buffer := buf, rec_head := rh }, input)
  else if st.is_empty then
    (st, 0)
  else
    let out := getInterpolatedSample st st.play_head
    let index := (st.loop_start + (⌊st.play_head⌋).toNat) % st.buffer_length
    let mixed := clip (st.buffer index + input)
    let st := if st.overdubbing then { st with buffer := Function.update st.buffer index mixed } else st
    let out := if st.overdubbing then mixed else out
    let ph :=
      if st.reverse then
        let p := st.play_head - st.playback_speed
        if p < 0 then p + (st.loop_length : ℚ) else p
      else
        let p := st.play_head + st.playback_speed
        if (st.loop_length : ℚ) ≤ p then p - (st.loop_length : ℚ) else p
    ({ st with play_head := ph }, out)

/-- Feed a list of input samples through `process` one by one; returns the
final state and the list of output samples. -/
def feed (clip : ℚ → ℚ) (st : Looper) : List ℚ → Looper × List ℚ
  | [] => (st, [])
  | a :: l =>
      let r := process clip st a
      let rest := feed clip r.1 l
      (rest.1, r.2 :: rest.2)

/-- `OverdubLooper::ApplyCrossfade`, inner loop: state of the buffer after
the first `n` iterations (`i = 0, …, n-1`) of the fade loop. -/
def crossfadeIter (loop_start loop_length buffer_length : ℕ) (b : ℕ → ℚ) : ℕ → (ℕ → ℚ)
  | 0 => b
  | n + 1 =>
      let bp := crossfadeIter loop_start loop_length buffer_length b n
      let fade : ℚ := (n : ℚ) / (CROSSFADE_SAMPLES : ℚ)
      let start_idx := (loop_start + n) % buffer_length
      let end_idx := (loop_start + loop_length - CROSSFADE_SAMPLES + n) % buffer_length
      Function.update bp start_idx (bp start_idx * fade + bp end_idx * (1 - fade))

/-- `OverdubLooper::ApplyCrossfade`. -/
def applyCrossfade (st : Looper) : Looper :=
  if st.loop_length < CROSSFADE_SAMPLES * 2 then st
  else
    { st with
      buffer :=
        crossfadeIter st.loop_start st.loop_length st.buffer_length st.buffer CROSSFADE_SAMPLES }

/-- `OverdubLooper::StopRecording`. -/
def stopRecording (st : Looper) : Looper :=
  applyCrossfade { st with is_recording := false }

/-! ## Clock/tempo (sampler_sync.h, class ClockSync) -/

/-- The member state of `ClockSync`. -/
structure ClockSync where
  bpm : ℚ
  time_sig_numerator : ℕ
  time_sig_denominator : ℕ
  sample_rate : ℚ
  samples_per_beat : ℕ
  samples_per_bar : ℕ
  sample_counter : ℕ
  beat_counter : ℕ
  deriving Repr

/-- `ClockSync::CalculateTimings`: `static_cast<size_t>` truncates the
(non-negative) float quotient toward zero. -/
def calculateTimings (c : ClockSync) : ClockSync :=
  let spb := (⌊c.sample_rate * 60 / c.bpm⌋).toNat
  { c with
    samples_per_beat := spb
    samples_per_bar := spb * c.time_sig_numerator }

/-- The `ClockSync` default constructor. -/
def clockInit : ClockSync :=
  calculateTimings
    { bpm := 120
      time_sig_numerator := 4
      time_sig_denominator := 4
      sample_rate := 48000
      samples_per_beat := 0
      samples_per_bar := 0
      sample_counter := 0
      beat_counter := 0 }

/-- `ClockSync::SetBPM`. -/
def setBPM (c : ClockSync) (bpm : ℚ) : ClockSync :=
  if bpm ≤ 0 then c else calculateTimings { c with bpm := bpm }

/-- `ClockSync::SetSampleRate`. -/
def setSampleRate (c : ClockSync) (sample_rate : ℚ) : ClockSync :=
  if sample_rate ≤ 0 then c else calculateTimings { c with sample_rate := sample_rate }

/-- `ClockSync::SetTimeSignature` (arguments are `uint8_t`, so "non-positive"
means zero). -/
def setTimeSignature (c : ClockSync) (numerator denominator : ℕ) : ClockSync :=
  if numerator = 0 ∨ denominator = 0 then c
  else
    calculateTimings
      { c with time_sig_numerator := numerator, time_sig_denominator := denominator }

/-- Rounding to the nearest integer, half rounding up — the reading of
`round` in the spec's formula `samples_per_beat = round(sample_rate * 60 / bpm)`.
Written from the spec's words, for comparison with `calculateTimings`. -/
def specRound (x : ℚ) : ℤ := ⌊x + 1 / 2⌋

/-! ## Undo-history operation sequences (for the history invariants) -/

/-- One control-path history operation. -/
inductive HistOp where
  | save
  | undo
  | redo
  deriving DecidableEq, Repr

/-- Run a sequence of history operations. -/
def runHist (st : Looper) : List HistOp → Looper
  | [] => st
  | op :: l =>
      let st' :=
        match op with
        | HistOp.save => saveUndoState st
        | HistOp.undo => (undoOp st).1
        | HistOp.redo => (redoOp st).1
      runHist st' l

/-- A concrete, fully specified engine state used by the witnesses. -/
def looperW : Looper where
  buffer := fun _ => 0
  buffer_length := 10
  loop_start := 0
  loop_length := 5
  play_head := 3
  rec_head := 0
  is_empty := false
  is_recording := false
  reverse := false
  overdubbing := false
  playback_speed := 1
  quantize := false
  quantize_beats := 4
  bpm := 120
  samples_per_beat := 0
  undo_enabled := false
  undo_count := 0
  undo_buffers := fun _ _ => 0
  undo_write_index := 0
  undo_read_index := 0
  undo_depth := 0
  redo_depth := 0

/-- Claim C2: for every (state, event) pair, `ProcessEvent` moves the state
machine exactly as given by the transition table of spec §4.1 and returns
true; every pair not in the table leaves the state unchanged and returns
false. -/
theorem processEvent_matches_spec_table :
    ∀ (c p : LooperState) (e : LooperEvent),
      processEvent ⟨c, p⟩ e =
        match specTableNext c e with
        | some t => (⟨t, c⟩, true)
        | none => (⟨c, p⟩, false) := by
  decide

/-- Claim C3: for every pair of sample indices `s ≤ e` (with `e - s + 1`
representable in `size_t`, as the spec's data model requires of a region),
after `SetLoopRegion(s, e)` the loop length equals `e - s + 1`, and — for a
playhead satisfying the data model's non-negativity invariant — the playhead
lies in `[0, length)`, being reset to 0 exactly when it would fall at or
beyond the new length. -/
theorem setLoopRegion_length_playhead (st : Looper) (s e : ℕ)
    (hse : s ≤ e) (hlen : e - s + 1 < sizeT) (hph : 0 ≤ st.play_head) :
    (setLoopRegion st s e).loop_length = e - s + 1 ∧
    0 ≤ (setLoopRegion st s e).play_head ∧
    (setLoopRegion st s e).play_head < ((setLoopRegion st s e).loop_length : ℚ) := by
  have hraw : ((e + sizeT + 1) - s) % sizeT = e - s + 1 := by
    have h1 : (e + sizeT + 1) - s = (e - s + 1) + sizeT := by omega
    rw [h1, Nat.add_mod_right, Nat.mod_eq_of_lt hlen]
  have hclamp : ¬ ((e - s + 1 : ℕ) < 1) := by omega
  simp only [setLoopRegion, hraw, if_neg hclamp]
  refine ⟨by trivial, ?_, ?_⟩
  · split_ifs with h
    · exact le_refl 0
    · exact hph
  · split_ifs with h
    · exact_mod_cast Nat.succ_pos (e - s)
    · exact lt_of_not_le h

/-- Witness for C3 at `s = 2`, `e = 7` on the concrete state `looperW`. -/
theorem setLoopRegion_length_playhead_witness :
    ((2 : ℕ) ≤ 7 ∧ (7 : ℕ) - 2 + 1 < sizeT ∧ 0 ≤ looperW.play_head) ∧
    ((setLoopRegion looperW 2 7).loop_length = 7 - 2 + 1 ∧
     0 ≤ (setLoopRegion looperW 2 7).play_head ∧
     (setLoopRegion looperW 2 7).play_head < ((setLoopRegion looperW 2 7).loop_length : ℚ)) :=
  ⟨⟨by norm_num, by norm_num [sizeT], by norm_num [looperW]⟩,
   setLoopRegion_length_playhead looperW 2 7 (by norm_num) (by norm_num [sizeT])
     (by norm_num [looperW])⟩

/-- Claim C10: for `SetLoopRegion(s, e)` with `e + 1 ≤ s` (arguments being
`size_t` values, the start index within the buffer, and a buffer capacity
fitting in half the address space), the stored region length is the unsigned
wraparound value `(e - s + 1) mod 2^64`: when `e + 1 < s` this value exceeds
the buffer capacity and the clamp-to-at-least-1 branch does not fire, and
the clamp fires exactly in the single case `e + 1 = s`, where the wrapped
length is 0 and is stored as 1. -/
theorem setLoopRegion_wraparound (st : Looper) (s e : ℕ)
    (hs : s < sizeT) (he : e < sizeT) (_hle : e + 1 ≤ s)
    (hsc : s ≤ st.buffer_length) (hcap : 2 * st.buffer_length ≤ sizeT) :
    (e + 1 < s →
      ((setLoopRegion st s e).loop_length : ℤ) = ((e : ℤ) - s + 1) % (sizeT : ℤ) ∧
      st.buffer_length < (setLoopRegion st s e).loop_length) ∧
    (e + 1 = s →
      (setLoopRegion st s e).loop_length = 1 ∧ ((e : ℤ) - s + 1) % (sizeT : ℤ) = 0) := by
  have hsz : sizeT = 18446744073709551616 := by norm_num [sizeT]
  rw [hsz] at hs he hcap
  simp only [setLoopRegion, hsz]
  constructor
  · intro hlt
    have hclamp :
        ¬ (((e + 18446744073709551616 + 1) - s) % 18446744073709551616 < 1) := by omega
    rw [if_neg hclamp]
    constructor
    · omega
    · omega
  · intro heq
    have hclamp :
        ((e + 18446744073709551616 + 1) - s) % 18446744073709551616 < 1 := by omega
    rw [if_pos hclamp]
    exact ⟨rfl, by omega⟩

/-- Witness for C10 at `s = 6`, `e = 2` (and, for the clamp case, the
instance `s = 3`, `e = 2` of the same theorem) on `looperW`. -/
theorem setLoopRegion_wraparound_witness :
    ((6 : ℕ) < sizeT ∧ (2 : ℕ) < sizeT ∧ (2 : ℕ) + 1 ≤ 6 ∧
      (6 : ℕ) ≤ looperW.buffer_length ∧ 2 * looperW.buffer_length ≤ sizeT) ∧
    (((2 : ℕ) + 1 < 6 →
      ((setLoopRegion looperW 6 2).loop_length : ℤ) = ((2 : ℤ) - 6 + 1) % (sizeT : ℤ) ∧
      looperW.buffer_length < (setLoopRegion looperW 6 2).loop_length) ∧
     ((2 : ℕ) + 1 = 6 →
      (setLoopRegion looperW 6 2).loop_length = 1 ∧ ((2 : ℤ) - 6 + 1) % (sizeT : ℤ) = 0)) :=
  ⟨⟨by norm_num [sizeT], by norm_num [sizeT], by norm_num,
    by norm_num [looperW], by norm_num [looperW, sizeT]⟩,
   setLoopRegion_wraparound looperW 6 2 (by norm_num [sizeT]) (by norm_num [sizeT])
     (by norm_num) (by norm_num [looperW]) (by norm_num [looperW, sizeT])⟩

/-- Pure integer fact behind "rounded to the nearest multiple": if `A` is a
multiple with `A ≤ s + H < A + P` (where `H = ⌊P/2⌋`), then `A` is at least
as close to `s` as any other multiple `B`. -/
lemma nearest_aux (s H P A B : ℤ) (h1 : 2 * H ≤ P) (h2 : P ≤ 2 * H + 1)
    (hcl : A ≤ s + H) (hcu : s + H < A + P)
    (hB : B + P ≤ A ∨ B = A ∨ A + P ≤ B) :
    (s - A).natAbs ≤ (s - B).natAbs := by omega

/-- The rounding `((s + spb/2) / spb) * spb` used by `QuantizeLoopRegion`
(and by `ClockSync::SnapToNearestBeat`) lands on the multiple of `spb`
nearest to `s` (ties resolved upward). -/
lemma roundedStart_nearest (spb s m : ℕ) (hspb : 0 < spb) (hm : m % spb = 0) :
    ((s : ℤ) - (((s + spb / 2) / spb) * spb : ℕ)).natAbs ≤ ((s : ℤ) - (m : ℕ)).natAbs := by
  obtain ⟨k, hk⟩ := Nat.dvd_of_mod_eq_zero hm
  subst hk
  set c := (s + spb / 2) / spb with hc
  have hdm : spb * c + (s + spb / 2) % spb = s + spb / 2 := Nat.div_add_mod _ _
  have hmod : (s + spb / 2) % spb < spb := Nat.mod_lt _ hspb
  have hcl : spb * c ≤ s + spb / 2 := by omega
  have hcu : s + spb / 2 < spb * c + spb := by omega
  have hAc : c * spb = spb * c := Nat.mul_comm c spb
  rw [hAc]
  have hB : spb * k + spb ≤ spb * c ∨ spb * k = spb * c ∨ spb * c + spb ≤ spb * k := by
    rcases lt_trichotomy k c with h | h | h
    · left
      calc spb * k + spb = spb * (k + 1) := by ring
        _ ≤ spb * c := Nat.mul_le_mul_left spb h
    · right; left; rw [h]
    · right; right
      calc spb * c + spb = spb * (c + 1) := by ring
        _ ≤ spb * k := Nat.mul_le_mul_left spb h
  refine nearest_aux (s : ℤ) ((spb / 2 : ℕ) : ℤ) (spb : ℤ)
      ((spb * c : ℕ) : ℤ) ((spb * k : ℕ) : ℤ) ?_ ?_ ?_ ?_ ?_
  · exact_mod_cast (by omega : 2 * (spb / 2) ≤ spb)
  · exact_mod_cast (by omega : spb ≤ 2 * (spb / 2) + 1)
  · exact_mod_cast hcl
  · exact_mod_cast hcu
  · exact_mod_cast hB

/-- Claim C6: `QuantizeLoopRegion` returns its inputs unchanged when
quantization is disabled or `samples_per_beat` is zero; when quantization is
enabled with `samples_per_beat > 0` (and the configured `quantize_beats > 0`,
which `SetQuantize` always enforces), the returned start is the input start
rounded to the nearest beat boundary, and the returned length
`out_end - out_start` is a multiple of `quantize_beats * samples_per_beat`
and at least `quantize_beats * samples_per_beat`. -/
theorem quantizeLoopRegion_correct (st : Looper) (s e : ℕ) :
    ((st.quantize = false ∨ st.samples_per_beat = 0) →
      quantizeLoopRegion st s e = (s, e)) ∧
    (st.quantize = true → 0 < st.samples_per_beat → 0 < st.quantize_beats →
      (quantizeLoopRegion st s e).1 % st.samples_per_beat = 0 ∧
      (∀ m : ℕ, m % st.samples_per_beat = 0 →
        ((s : ℤ) - ((quantizeLoopRegion st s e).1 : ℕ)).natAbs ≤ ((s : ℤ) - (m : ℕ)).natAbs) ∧
      ((quantizeLoopRegion st s e).2 - (quantizeLoopRegion st s e).1) %
          (st.quantize_beats * st.samples_per_beat) = 0 ∧
      st.quantize_beats * st.samples_per_beat ≤
        (quantizeLoopRegion st s e).2 - (quantizeLoopRegion st s e).1) := by
  constructor
  · intro h
    simp only [quantizeLoopRegion, if_pos h]
  · intro hq hspb hqb
    have hcond : ¬ (st.quantize = false ∨ st.samples_per_beat = 0) := by
      rw [hq]
      simp only [Bool.true_eq_false, false_or]
      omega
    simp only [quantizeLoopRegion, if_neg hcond]
    set spb := st.samples_per_beat with hspb_def
    set qb := st.quantize_beats with hqb_def
    set lib := ((if s < e then e - s else 0) + spb / 2) / spb with hlib
    set L := if lib < qb then qb else ((lib + qb / 2) / qb) * qb with hL
    refine ⟨Nat.mul_mod_left _ _, ?_, ?_, ?_⟩
    · intro m hm
      exact roundedStart_nearest spb s m hspb hm
    · have hsub : ((s + spb / 2) / spb * spb + L * spb) - (s + spb / 2) / spb * spb
          = L * spb := by omega
      rw [hsub]
      rcases lt_or_le lib qb with h | h
      · rw [hL, if_pos h]
        exact Nat.mod_self _
      · rw [hL, if_neg (Nat.not_lt.mpr h)]
        have hmul : (lib + qb / 2) / qb * qb * spb = (lib + qb / 2) / qb * (qb * spb) := by
          ring
        rw [hmul]
        exact Nat.mul_mod_left _ _
    · have hsub : ((s + spb / 2) / spb * spb + L * spb) - (s + spb / 2) / spb * spb
          = L * spb := by omega
      rw [hsub]
      rcases lt_or_le lib qb with h | h
      · rw [hL, if_pos h]
      · rw [hL, if_neg (Nat.not_lt.mpr h)]
        have hc1 : 1 ≤ (lib + qb / 2) / qb := by
          rw [Nat.le_div_iff_mul_le hqb]
          omega
        calc qb * spb = 1 * (qb * spb) := (Nat.one_mul _).symm
          _ ≤ (lib + qb / 2) / qb * (qb * spb) := Nat.mul_le_mul_right _ hc1
          _ = (lib + qb / 2) / qb * qb * spb := by ring

/-- Witness for C6: both branches of the theorem at a concrete state —
quantization off on `looperW`, and on with `samples_per_beat = 100`,
`quantize_beats = 4` (checking the nearest-multiple clause at `m = 200`). -/
theorem quantizeLoopRegion_correct_witness :
    (quantizeLoopRegion looperW 7 42 = (7, 42)) ∧
    ((quantizeLoopRegion { looperW with quantize := true, samples_per_beat := 100 }
        130 1000).1 % 100 = 0 ∧
     (((130 : ℤ) - ((quantizeLoopRegion { looperW with quantize := true, samples_per_beat := 100 }
        130 1000).1 : ℕ)).natAbs ≤ ((130 : ℤ) - ((200 : ℕ) : ℤ)).natAbs) ∧
     ((quantizeLoopRegion { looperW with quantize := true, samples_per_beat := 100 } 130 1000).2 -
        (quantizeLoopRegion { looperW with quantize := true, samples_per_beat := 100 } 130 1000).1)
        % (4 * 100) = 0 ∧
     4 * 100 ≤
       (quantizeLoopRegion { looperW with quantize := true, samples_per_beat := 100 } 130 1000).2 -
       (quantizeLoopRegion { looperW with quantize := true, samples_per_beat := 100 } 130 1000).1) := by
  constructor
  · exact (quantizeLoopRegion_correct looperW 7 42).1 (Or.inl rfl)
  · obtain ⟨h1, h2, h3, h4⟩ :=
      (quantizeLoopRegion_correct { looperW with quantize := true, samples_per_beat := 100 }
        130 1000).2 rfl (by norm_num) (by norm_num [looperW])
    exact ⟨h1, h2 200 (by norm_num), h3, h4⟩

/-- Counterexample to C7 as stated: the claim's formula is
`samples_per_beat = round(sample_rate * 60 / bpm)`, but
`ClockSync::CalculateTimings` applies `static_cast<size_t>`, which
truncates.  At BPM 70 on the default clock (sample rate 48000),
`48000 * 60 / 70 = 41142.857…`; the code stores 41142 while rounding to
nearest yields 41143. -/
theorem setBPM_not_rounded :
    (0 : ℚ) < 70 ∧
    (setBPM clockInit 70).samples_per_beat = 41142 ∧
    specRound (clockInit.sample_rate * 60 / 70) = 41143 ∧
    ((setBPM clockInit 70).samples_per_beat : ℤ) ≠
      specRound (clockInit.sample_rate * 60 / 70) := by
  have hfl : (⌊(48000 * 60 / 70 : ℚ)⌋ : ℤ) = 41142 := by
    rw [Int.floor_eq_iff]
    norm_num
  have hfr : specRound ((48000 : ℚ) * 60 / 70) = 41143 := by
    simp only [specRound]
    rw [Int.floor_eq_iff]
    norm_num
  have hsr : clockInit.sample_rate = 48000 := rfl
  have hspb : (setBPM clockInit 70).samples_per_beat = 41142 := by
    have h70 : ¬ ((70 : ℚ) ≤ 0) := by norm_num
    rw [setBPM, if_neg h70]
    show (⌊((48000 : ℚ) * 60 / 70)⌋).toNat = 41142
    rw [hfl]
    rfl
  refine ⟨by norm_num, hspb, ?_, ?_⟩
  · rw [hsr]
    exact hfr
  · rw [hspb, hsr, hfr]
    norm_num

/-- Claim C7, amended: each of `SetBPM`, `SetSampleRate`, `SetTimeSignature`
ignores a non-positive argument (zero, for the unsigned time-signature
fields), leaving the entire clock state unchanged; a positive argument is
stored and the derived values are recomputed as
`samples_per_beat = trunc(sample_rate * 60 / bpm)` (float-to-integer
truncation, not rounding to nearest) and
`samples_per_bar = samples_per_beat * numerator`. -/
theorem clock_setters_truncate (c : ClockSync) (b sr : ℚ) (n d : ℕ) :
    (b ≤ 0 → setBPM c b = c) ∧
    (0 < b →
      (setBPM c b).bpm = b ∧
      (setBPM c b).samples_per_beat = (⌊c.sample_rate * 60 / b⌋).toNat ∧
      (setBPM c b).samples_per_bar =
        (setBPM c b).samples_per_beat * c.time_sig_numerator) ∧
    (sr ≤ 0 → setSampleRate c sr = c) ∧
    (0 < sr →
      (setSampleRate c sr).sample_rate = sr ∧
      (setSampleRate c sr).samples_per_beat = (⌊sr * 60 / c.bpm⌋).toNat ∧
      (setSampleRate c sr).samples_per_bar =
        (setSampleRate c sr).samples_per_beat * c.time_sig_numerator) ∧
    ((n = 0 ∨ d = 0) → setTimeSignature c n d = c) ∧
    (0 < n → 0 < d →
      (setTimeSignature c n d).time_sig_numerator = n ∧
      (setTimeSignature c n d).time_sig_denominator = d ∧
      (setTimeSignature c n d).samples_per_beat = (⌊c.sample_rate * 60 / c.bpm⌋).toNat ∧
      (setTimeSignature c n d).samples_per_bar =
        (setTimeSignature c n d).samples_per_beat * n) := by
  refine ⟨?_, ?_, ?_, ?_, ?_, ?_⟩
  · intro h
    simp only [setBPM, if_pos h]
  · intro h
    simp only [setBPM, if_neg (not_le.mpr h), calculateTimings]
    refine ⟨?_, ?_, ?_⟩ <;> trivial
  · intro h
    simp only [setSampleRate, if_pos h]
  · intro h
    simp only [setSampleRate, if_neg (not_le.mpr h), calculateTimings]
    refine ⟨?_, ?_, ?_⟩ <;> trivial
  · intro h
    simp only [setTimeSignature, if_pos h]
  · intro hn hd
    have h : ¬ (n = 0 ∨ d = 0) := by omega
    simp only [setTimeSignature, if_neg h, calculateTimings]
    refine ⟨?_, ?_, ?_, ?_⟩ <;> trivial

/-- Witness for the amended C7: a positive `SetBPM` on the default clock
truncates, and a non-positive one is a no-op. -/
theorem clock_setters_truncate_witness :
    ((0 : ℚ) < 70 ∧
      (setBPM clockInit 70).samples_per_beat = (⌊clockInit.sample_rate * 60 / 70⌋).toNat) ∧
    ((-5 : ℚ) ≤ 0 ∧ setBPM clockInit (-5) = clockInit) :=
  ⟨⟨by norm_num,
    ((clock_setters_truncate clockInit 70 44100 3 4).2.1 (by norm_num)).2.1⟩,
   ⟨by norm_num,
    (clock_setters_truncate clockInit (-5) 44100 3 4).1 (by norm_num)⟩⟩

/-- Step lemma for the history-depth invariant: `SaveUndoState`. -/
lemma saveUndoState_inv (st : Looper)
    (h1 : st.redo_depth ≤ MAX_UNDO_LEVELS - 1)
    (h2 : st.undo_depth + st.redo_depth ≤ st.undo_count + (MAX_UNDO_LEVELS - 1)) :
    (saveUndoState st).undo_count = st.undo_count ∧
    (saveUndoState st).redo_depth ≤ MAX_UNDO_LEVELS - 1 ∧
    (saveUndoState st).undo_depth + (saveUndoState st).redo_depth ≤
      st.undo_count + (MAX_UNDO_LEVELS - 1) := by
  by_cases hc : st.undo_enabled = false ∨ st.undo_count = 0
  · simp only [saveUndoState, if_pos hc]
    exact ⟨by trivial, h1, h2⟩
  · simp only [saveUndoState, if_neg hc]
    refine ⟨by trivial, h1, ?_⟩
    split_ifs with h
    · omega
    · exact h2

/-- Step lemma for the history-depth invariant: `Undo`. -/
lemma undoOp_inv (st : Looper)
    (h1 : st.redo_depth ≤ MAX_UNDO_LEVELS - 1)
    (h2 : st.undo_depth + st.redo_depth ≤ st.undo_count + (MAX_UNDO_LEVELS - 1)) :
    (undoOp st).1.undo_count = st.undo_count ∧
    (undoOp st).1.redo_depth ≤ MAX_UNDO_LEVELS - 1 ∧
    (undoOp st).1.undo_depth + (undoOp st).1.redo_depth ≤
      st.undo_count + (MAX_UNDO_LEVELS - 1) := by
  by_cases hc : st.undo_enabled = false ∨ st.undo_depth = 0
  · simp only [undoOp, if_pos hc]
    exact ⟨by trivial, h1, h2⟩
  · simp only [undoOp, if_neg hc]
    have hd : st.undo_depth ≠ 0 := fun h => hc (Or.inr h)
    refine ⟨by trivial, ?_, ?_⟩
    · split_ifs with h <;> omega
    · split_ifs with h <;> omega

/-- Step lemma for the history-depth invariant: `Redo`. -/
lemma redoOp_inv (st : Looper)
    (h1 : st.redo_depth ≤ MAX_UNDO_LEVELS - 1)
    (h2 : st.undo_depth + st.redo_depth ≤ st.undo_count + (MAX_UNDO_LEVELS - 1)) :
    (redoOp st).1.undo_count = st.undo_count ∧
    (redoOp st).1.redo_depth ≤ MAX_UNDO_LEVELS - 1 ∧
    (redoOp st).1.undo_depth + (redoOp st).1.redo_depth ≤
      st.undo_count + (MAX_UNDO_LEVELS - 1) := by
  by_cases hc : st.undo_enabled = false ∨ st.redo_depth = 0
  · simp only [redoOp, if_pos hc]
    exact ⟨by trivial, h1, h2⟩
  · simp only [redoOp, if_neg hc]
    have hr : st.redo_depth ≠ 0 := by
      intro h
      exact hc (Or.inr h)
    exact ⟨by trivial, by omega, by omega⟩

/-- Counterexample to C5 as stated: with `configured_count = 1`, a single
`SaveUndoState` followed by a single `Undo` leaves `redo_depth = 1`,
violating the claimed bound `redo_depth ≤ configured_count - 1 = 0` (the
code saturates `redo_depth` at `MAX_UNDO_LEVELS - 1 = 2`, not at
`configured_count - 1`). -/
theorem history_depth_counterexample :
    (runHist { looperW with undo_enabled := true, undo_count := 1 }
        [HistOp.save, HistOp.undo]).undo_count = 1 ∧
    (runHist { looperW with undo_enabled := true, undo_count := 1 }
        [HistOp.save, HistOp.undo]).redo_depth = 1 ∧
    ¬ ((runHist { looperW with undo_enabled := true, undo_count := 1 }
        [HistOp.save, HistOp.undo]).redo_depth ≤ 1 - 1) := by
  refine ⟨by decide, by decide, by decide⟩

/-- Claim C5, amended: for every configured snapshot count and every finite
sequence of `SaveUndoState`/`Undo`/`Redo` calls starting from a state
satisfying the counters' invariant (in particular from the freshly
initialised history, whose depths are 0), the history counters satisfy
`0 ≤ redo_depth ≤ MAX_UNDO_LEVELS - 1 = 2` and
`0 ≤ undo_depth ≤ undo_depth + redo_depth ≤ configured_count + 2` at every
point.  The bounds claimed in the spec (`undo_depth ≤ configured_count` and
`redo_depth ≤ configured_count - 1`) do not hold: `Redo` increments
`undo_depth` without a bound check and `Undo` saturates `redo_depth` at
`MAX_UNDO_LEVELS - 1` regardless of the configured count. -/
theorem history_depth_bounds (st : Looper) (ops : List HistOp)
    (h1 : st.redo_depth ≤ MAX_UNDO_LEVELS - 1)
    (h2 : st.undo_depth + st.redo_depth ≤ st.undo_count + (MAX_UNDO_LEVELS - 1)) :
    (runHist st ops).undo_count = st.undo_count ∧
    (runHist st ops).redo_depth ≤ MAX_UNDO_LEVELS - 1 ∧
    (runHist st ops).undo_depth + (runHist st ops).redo_depth ≤
      st.undo_count + (MAX_UNDO_LEVELS - 1) := by
  induction ops generalizing st with
  | nil => exact ⟨rfl, h1, h2⟩
  | cons op l ih =>
      cases op with
      | save =>
          obtain ⟨hc, hr, hs⟩ := saveUndoState_inv st h1 h2
          obtain ⟨ic, ir, is'⟩ := ih (saveUndoState st) hr (by rw [hc]; exact hs)
          exact ⟨by rw [show runHist st (HistOp.save :: l) = runHist (saveUndoState st) l
                        from rfl, ic, hc],
                 ir, by rw [show runHist st (HistOp.save :: l) = runHist (saveUndoState st) l
                        from rfl]; rw [hc] at is'; exact is'⟩
      | undo =>
          obtain ⟨hc, hr, hs⟩ := undoOp_inv st h1 h2
          obtain ⟨ic, ir, is'⟩ := ih (undoOp st).1 hr (by rw [hc]; exact hs)
          exact ⟨by rw [show runHist st (HistOp.undo :: l) = runHist (undoOp st).1 l
                        from rfl, ic, hc],
                 ir, by rw [show runHist st (HistOp.undo :: l) = runHist (undoOp st).1 l
                        from rfl]; rw [hc] at is'; exact is'⟩
      | redo =>
          obtain ⟨hc, hr, hs⟩ := redoOp_inv st h1 h2
          obtain ⟨ic, ir, is'⟩ := ih (redoOp st).1 hr (by rw [hc]; exact hs)
          exact ⟨by rw [show runHist st (HistOp.redo :: l) = runHist (redoOp st).1 l
                        from rfl, ic, hc],
                 ir, by rw [show runHist st (HistOp.redo :: l) = runHist (redoOp st).1 l
                        from rfl]; rw [hc] at is'; exact is'⟩

/-- Witness for the amended C5 on a concrete fresh history of count 2 and a
sequence exercising save, undo and redo. -/
theorem history_depth_bounds_witness :
    ({ looperW with undo_enabled := true, undo_count := 2 }.redo_depth ≤ MAX_UNDO_LEVELS - 1 ∧
     { looperW with undo_enabled := true, undo_count := 2 }.undo_depth +
       { looperW with undo_enabled := true, undo_count := 2 }.redo_depth ≤
       { looperW with undo_enabled := true, undo_count := 2 }.undo_count +
         (MAX_UNDO_LEVELS - 1)) ∧
    ((runHist { looperW with undo_enabled := true, undo_count := 2 }
        [HistOp.save, HistOp.save, HistOp.undo, HistOp.save, HistOp.redo]).undo_count =
      { looperW with undo_enabled := true, undo_count := 2 }.undo_count ∧
     (runHist { looperW with undo_enabled := true, undo_count := 2 }
        [HistOp.save, HistOp.save, HistOp.undo, HistOp.save, HistOp.redo]).redo_depth ≤
       MAX_UNDO_LEVELS - 1 ∧
     (runHist { looperW with undo_enabled := true, undo_count := 2 }
        [HistOp.save, HistOp.save, HistOp.undo, HistOp.save, HistOp.redo]).undo_depth +
       (runHist { looperW with undo_enabled := true, undo_count := 2 }
        [HistOp.save, HistOp.save, HistOp.undo, HistOp.save, HistOp.redo]).redo_depth ≤
       { looperW with undo_enabled := true, undo_count := 2 }.undo_count +
         (MAX_UNDO_LEVELS - 1)) :=
  ⟨⟨by decide, by decide⟩,
   history_depth_bounds { looperW with undo_enabled := true, undo_count := 2 }
     [HistOp.save, HistOp.save, HistOp.undo, HistOp.save, HistOp.redo]
     (by decide) (by decide)⟩

/-- A one-sample loop region with content 5 and a two-slot undo history. -/
def undoBase : Looper :=
  { looperW with
    undo_enabled := true
    undo_count := 2
    loop_start := 0
    loop_length := 1
    buffer := fun x => if x = 0 then 5 else 0 }

/-- `undoBase` after one `SaveUndoState` and a region edit (content 5 → 7):
a state reachable by one save interleaved with region edits. -/
def undoEdited : Looper :=
  { saveUndoState undoBase with buffer := fun x => if x = 0 then 7 else 0 }

/-- Claim C4 fails on the code: from `undoEdited` (reachable by one save,
within the configured history depth of 2), `Undo` restores the snapshot
(content 5) but discards the live content 7 without saving it, and the
subsequent `Redo` copies the next ring slot — which was never written —
leaving content 0.  Neither `Redo ∘ Undo` (gives 0) nor `Undo ∘ Redo`
(`Redo` fails, then `Undo` gives 5) restores the region content 7 of the
original state. -/
theorem undo_redo_roundtrip_failure :
    undoEdited.buffer 0 = 7 ∧
    (undoOp undoEdited).2 = true ∧
    (undoOp undoEdited).1.buffer 0 = 5 ∧
    (redoOp (undoOp undoEdited).1).2 = true ∧
    (redoOp (undoOp undoEdited).1).1.buffer 0 = 0 ∧
    (redoOp undoEdited).2 = false ∧
    (undoOp (redoOp undoEdited).1).1.buffer 0 = 5 := by
  refine ⟨by decide, by decide, by decide, by decide, by decide, by decide, by decide⟩

/-- A one-sample loop region with content 1 and a three-slot undo history. -/
def redoBranchBase : Looper :=
  { looperW with
    undo_enabled := true
    undo_count := 3
    loop_start := 0
    loop_length := 1
    buffer := fun x => if x = 0 then 1 else 0 }

/-- `redoBranchBase` after Save(content 1); edit to 2; Save(content 2);
Undo; Undo; Save — a save performed after undos, which per C8 should leave
a history in which no redo branch exists. -/
def redoBranchState : Looper :=
  saveUndoState
    ((undoOp
        ((undoOp
            (saveUndoState
              { saveUndoState redoBranchBase with
                buffer := fun x => if x = 0 then 2 else 0 })).1)).1)

/-- Claim C8 fails on the code: after a `SaveUndoState` following two
`Undo`s, the write and read cursors are realigned, but `_redo_depth` is
never cleared, so `Redo` still succeeds and overwrites the region with the
pre-undo content 2 — a state that a linear history would have discarded at
the save. -/
theorem save_after_undo_keeps_redo_branch :
    redoBranchState.buffer 0 = 1 ∧
    redoBranchState.undo_read_index = redoBranchState.undo_write_index ∧
    redoBranchState.redo_depth = 2 ∧
    (redoOp redoBranchState).2 = true ∧
    (redoOp redoBranchState).1.buffer 0 = 2 := by
  refine ⟨by decide, by decide, by decide, by decide, by decide⟩

/-- `Process` on a recording state whose record head stays inside the
buffer after advancing: write at the head, advance, stay recording. -/
lemma process_rec_cont (clip : ℚ → ℚ) (st : Looper) (a : ℚ)
    (h : st.is_recording = true) (h2 : ¬ st.buffer_length ≤ st.rec_head + 1) :
    process clip st a =
      ({ st with buffer := Function.update st.buffer st.rec_head a,
                 rec_head := st.rec_head + 1 }, a) := by
  simp only [process, h, if_true, if_neg h2]

/-- `Process` on a recording state whose record head reaches the buffer
capacity after advancing: write at the head, wrap to 0, stop recording. -/
lemma process_rec_stop (clip : ℚ → ℚ) (st : Looper) (a : ℚ)
    (h : st.is_recording = true) (h2 : st.buffer_length ≤ st.rec_head + 1) :
    process clip st a =
      ({ st with buffer := Function.update st.buffer st.rec_head a,
                 rec_head := 0, is_recording := false }, a) := by
  simp only [process, h, if_true, if_pos h2]

/-- Facts about `Process` on a non-recording state: it never re-enters
recording mode, preserves the buffer length, record head and overdub flag,
writes nothing when not overdubbing, and in any case writes only inside the
buffer. -/
lemma process_play (clip : ℚ → ℚ) (st : Looper) (a : ℚ)
    (h : st.is_recording = false) :
    (process clip st a).1.is_recording = false ∧
    (process clip st a).1.buffer_length = st.buffer_length ∧
    (process clip st a).1.overdubbing = st.overdubbing ∧
    (process clip st a).1.rec_head = st.rec_head ∧
    (st.overdubbing = false → (process clip st a).1.buffer = st.buffer) ∧
    (0 < st.buffer_length → ∀ x, st.buffer_length ≤ x →
      (process clip st a).1.buffer x = st.buffer x) := by
  have hni : ¬ st.is_recording = true := by simp [h]
  by_cases hemp : st.is_empty = true
  · have heq : process clip st a = (st, 0) := by
      simp only [process, if_neg hni, if_pos hemp]
    rw [heq]
    exact ⟨h, rfl, rfl, rfl, fun _ => rfl, fun _ _ _ => rfl⟩
  · by_cases hod : st.overdubbing = true
    · refine ⟨?_, ?_, ?_, ?_, ?_, ?_⟩
      · simp [process, hni, hemp, hod, h]
      · simp [process, hni, hemp, hod]
      · simp [process, hni, hemp, hod]
      · simp [process, hni, hemp, hod]
      · intro hodf
        rw [hodf] at hod
        exact absurd hod (by simp)
      · intro hpos x hx
        have hlt := Nat.mod_lt (st.loop_start + (⌊st.play_head⌋).toNat) hpos
        simp only [process, if_neg hni, if_neg hemp, hod, if_true]
        exact Function.update_noteq (by omega) _ _
    · have hod' : st.overdubbing = false := by
        revert hod
        cases st.overdubbing <;> simp
      refine ⟨?_, ?_, ?_, ?_, ?_, ?_⟩
      · simp [process, hni, hemp, hod', h]
      · simp [process, hni, hemp, hod']
      · simp [process, hni, hemp, hod']
      · simp [process, hni, hemp, hod']
      · intro _
        funext x
        simp [process, hni, hemp, hod']
      · intro _ x _
        simp [process, hni, hemp, hod']

/-- Master induction for C1, over a list of input samples fed to `Process`:
frame conditions, the recording flag as a function of how many samples were
fed, monitor-through outputs, and in-bounds writes of the recorded
samples. -/
lemma feed_recording_master (clip : ℚ → ℚ) :
    ∀ (l : List ℚ) (st : Looper),
      0 < st.buffer_length →
      (st.is_recording = true → st.rec_head < st.buffer_length) →
      (feed clip st l).1.buffer_length = st.buffer_length ∧
      (∀ x, st.buffer_length ≤ x → (feed clip st l).1.buffer x = st.buffer x) ∧
      ((feed clip st l).1.is_recording = true ↔
        (st.is_recording = true ∧ st.rec_head + l.length < st.buffer_length)) ∧
      (feed clip st l).2.length = l.length ∧
      (st.is_recording = true → ∀ k, k < l.length → st.rec_head + k < st.buffer_length →
        (feed clip st l).2.getD k 0 = l.getD k 0) ∧
      (st.overdubbing = false → (feed clip st l).1.overdubbing = false) ∧
      (st.overdubbing = false → st.is_recording = true →
        ∀ k, k < l.length → st.rec_head + k < st.buffer_length →
          (feed clip st l).1.buffer (st.rec_head + k) = l.getD k 0) ∧
      (st.overdubbing = false → ∀ x, x < st.rec_head →
        (feed clip st l).1.buffer x = st.buffer x) ∧
      (st.is_recording = false → st.overdubbing = false →
        (feed clip st l).1.buffer = st.buffer) := by
  intro l
  induction l with
  | nil =>
      intro st hcap hhead
      refine ⟨rfl, fun _ _ => rfl, ?_, rfl, ?_, fun h => h, ?_, fun _ _ _ => rfl,
        fun _ _ => rfl⟩
      · constructor
        · intro h
          exact ⟨h, by simpa using hhead h⟩
        · intro h
          exact h.1
      · intro _ k hk
        exact absurd hk (by simp)
      · intro _ _ k hk
        exact absurd hk (by simp)
  | cons a t ih =>
      intro st hcap hhead
      have hfeed : feed clip st (a :: t) =
          ((feed clip (process clip st a).1 t).1,
           (process clip st a).2 :: (feed clip (process clip st a).1 t).2) := by
        simp only [feed]
      rw [hfeed]
      by_cases hrec : st.is_recording = true
      · by_cases hstop : st.buffer_length ≤ st.rec_head + 1
        · -- the head reaches capacity at this sample: write, wrap, stop
          have hhd := hhead hrec
          have hstep := process_rec_stop clip st a hrec hstop
          have hf1 : (process clip st a).1.is_recording = false := by rw [hstep]
          have hf2 : (process clip st a).1.buffer_length = st.buffer_length := by rw [hstep]
          have hf3 : (process clip st a).1.overdubbing = st.overdubbing := by rw [hstep]
          have hf4 : (process clip st a).1.buffer =
              Function.update st.buffer st.rec_head a := by rw [hstep]
          have hout : (process clip st a).2 = a := by rw [hstep]
          obtain ⟨i1, i2, i3, i4, i5, i6, i7, i8, i9⟩ :=
            ih (process clip st a).1 (by rw [hf2]; exact hcap) (by rw [hf1]; simp)
          refine ⟨by rw [i1, hf2], ?_, ?_, by simp [i4], ?_, ?_, ?_, ?_, ?_⟩
          · intro x hx
            rw [i2 x (by rw [hf2]; exact hx), hf4]
            exact Function.update_noteq (by omega) _ _
          · rw [i3, hf1]
            simp only [Bool.false_eq_true, false_and, false_iff, List.length_cons]
            rintro ⟨-, hcontra⟩
            omega
          · intro _ k hk hkcap
            match k with
            | 0 => simp [hout]
            | k + 1 =>
                exfalso
                omega
          · intro hodf
            exact i6 (by rw [hf3]; exact hodf)
          · intro hodf _ k hk hkcap
            match k with
            | 0 =>
                have hb := congrFun (i9 hf1 (by rw [hf3]; exact hodf)) (st.rec_head + 0)
                rw [hb, hf4]
                simp only [Nat.add_zero, List.getD_cons_zero]
                exact Function.update_same _ _ _
            | k + 1 =>
                exfalso
                omega
          · intro hodf x hx
            have hb := congrFun (i9 hf1 (by rw [hf3]; exact hodf)) x
            rw [hb, hf4]
            exact Function.update_noteq (by omega) _ _
          · intro habs
            rw [hrec] at habs
            exact absurd habs (by simp)
        · -- the head stays strictly inside: write, advance, keep recording
          have hhd := hhead hrec
          have hstep := process_rec_cont clip st a hrec hstop
          have hf1 : (process clip st a).1.is_recording = true := by rw [hstep]; exact hrec
          have hf2 : (process clip st a).1.buffer_length = st.buffer_length := by rw [hstep]
          have hf3 : (process clip st a).1.overdubbing = st.overdubbing := by rw [hstep]
          have hf5 : (process clip st a).1.rec_head = st.rec_head + 1 := by rw [hstep]
          have hf4 : (process clip st a).1.buffer =
              Function.update st.buffer st.rec_head a := by rw [hstep]
          have hout : (process clip st a).2 = a := by rw [hstep]
          obtain ⟨i1, i2, i3, i4, i5, i6, i7, i8, i9⟩ :=
            ih (process clip st a).1 (by rw [hf2]; exact hcap) (by rw [hf5, hf2]; omega)
          refine ⟨by rw [i1, hf2], ?_, ?_, by simp [i4], ?_, ?_, ?_, ?_, ?_⟩
          · intro x hx
            rw [i2 x (by rw [hf2]; exact hx), hf4]
            exact Function.update_noteq (by omega) _ _
          · rw [i3, hf1, hf5, hf2]
            constructor
            · rintro ⟨-, h2⟩
              exact ⟨hrec, by simp only [List.length_cons]; omega⟩
            · rintro ⟨-, h2⟩
              simp only [List.length_cons] at h2
              exact ⟨rfl, by omega⟩
          · intro _ k hk hkcap
            match k with
            | 0 => simp [hout]
            | k + 1 =>
                simp only [List.getD_cons_succ]
                refine i5 hf1 k ?_ ?_
                · simp only [List.length_cons] at hk
                  omega
                · rw [hf5, hf2]
                  omega
          · intro hodf
            exact i6 (by rw [hf3]; exact hodf)
          · intro hodf _ k hk hkcap
            match k with
            | 0 =>
                have hb := i8 (by rw [hf3]; exact hodf) st.rec_head (by rw [hf5]; omega)
                rw [Nat.add_zero, hb, hf4]
                simp only [List.getD_cons_zero]
                exact Function.update_same _ _ _
            | k + 1 =>
                have hb := i7 (by rw [hf3]; exact hodf) hf1 k
                  (by simp only [List.length_cons] at hk; omega)
                  (by rw [hf5, hf2]; omega)
                rw [hf5] at hb
                simp only [List.getD_cons_succ]
                rw [show st.rec_head + (k + 1) = st.rec_head + 1 + k from by omega]
                exact hb
          · intro hodf x hx
            have hb := i8 (by rw [hf3]; exact hodf) x (by rw [hf5]; omega)
            rw [hb, hf4]
            exact Function.update_noteq (by omega) _ _
          · intro habs
            rw [hrec] at habs
            exact absurd habs (by simp)
      · -- not recording: playback path
          have hrec' : st.is_recording = false := by
            revert hrec
            cases st.is_recording <;> simp
          obtain ⟨p1, p2, p3, p4, p5, p6⟩ := process_play clip st a hrec'
          obtain ⟨i1, i2, i3, i4, i5, i6, i7, i8, i9⟩ :=
            ih (process clip st a).1 (by rw [p2]; exact hcap) (by rw [p1]; simp)
          refine ⟨by rw [i1, p2], ?_, ?_, by simp [i4], ?_, ?_, ?_, ?_, ?_⟩
          · intro x hx
            rw [i2 x (by rw [p2]; exact hx)]
            exact p6 hcap x hx
          · rw [i3, p1]
            simp only [Bool.false_eq_true, false_and, false_iff]
            rintro ⟨habs, -⟩
            rw [hrec'] at habs
            exact absurd habs (by simp)
          · intro habs
            rw [hrec'] at habs
            exact absurd habs (by simp)
          · intro hodf
            exact i6 (by rw [p3]; exact hodf)
          · intro _ habs
            rw [hrec'] at habs
            exact absurd habs (by simp)
          · intro hodf x hx
            have hb := congrFun (i9 p1 (by rw [p3]; exact hodf)) x
            rw [hb, congrFun (p5 hodf) x]
          · intro _ hodf
            funext x
            have hb := congrFun (i9 p1 (by rw [p3]; exact hodf)) x
            rw [hb, congrFun (p5 hodf) x]

/-- Claim C1: from any engine state in which recording is active (with the
record head inside the buffer, the invariant every reachable recording
state satisfies: `StartRecording` zeroes the head and `Process` wraps it
before it can reach the capacity), repeatedly calling `Process` never
writes any buffer cell at or beyond the buffer capacity, returns each input
sample unchanged while recording (the written samples land at the record
head positions, all inside the buffer), and keeps the recording flag set
after `k` samples exactly while `rec_head + k < capacity` — so feeding more
samples than the capacity clears the flag exactly once, when the head
reaches the capacity. -/
theorem process_recording_safety (clip : ℚ → ℚ) (st : Looper) (ins : List ℚ)
    (x k : ℕ)
    (hcap : 0 < st.buffer_length) (hrec : st.is_recording = true)
    (hhead : st.rec_head < st.buffer_length)
    (hx : st.buffer_length ≤ x) (hk : k ≤ ins.length) :
    (feed clip st ins).1.buffer x = st.buffer x ∧
    ((feed clip st (List.take k ins)).1.is_recording = true ↔
      st.rec_head + k < st.buffer_length) ∧
    (k < ins.length → st.rec_head + k < st.buffer_length →
      (feed clip st ins).2.getD k 0 = ins.getD k 0) ∧
    (st.overdubbing = false → k < ins.length → st.rec_head + k < st.buffer_length →
      (feed clip st ins).1.buffer (st.rec_head + k) = ins.getD k 0) := by
  obtain ⟨m1, m2, m3, m4, m5, m6, m7, m8, m9⟩ :=
    feed_recording_master clip ins st hcap (fun _ => hhead)
  obtain ⟨t1, t2, t3, t4, t5, t6, t7, t8, t9⟩ :=
    feed_recording_master clip (List.take k ins) st hcap (fun _ => hhead)
  refine ⟨m2 x hx, ?_, ?_, ?_⟩
  · rw [t3, List.length_take]
    constructor
    · rintro ⟨-, h2⟩
      omega
    · intro h2
      exact ⟨hrec, by omega⟩
  · intro h1 h2
    exact m5 hrec k h1 h2
  · intro hod h1 h2
    exact m7 hod hrec k h1 h2

/-- Witness for C1: recording started on `looperW` (capacity 10), fed the
samples `[1, 2, 3]`, checked at the out-of-bounds cell 11 and at step 1. -/
theorem process_recording_safety_witness :
    (0 < (startRecording looperW).buffer_length ∧
     (startRecording looperW).is_recording = true ∧
     (startRecording looperW).rec_head < (startRecording looperW).buffer_length ∧
     (startRecording looperW).buffer_length ≤ 11 ∧
     (1 : ℕ) ≤ ([1, 2, 3] : List ℚ).length) ∧
    ((feed id (startRecording looperW) [1, 2, 3]).1.buffer 11 =
       (startRecording looperW).buffer 11 ∧
     ((feed id (startRecording looperW) (List.take 1 [1, 2, 3])).1.is_recording = true ↔
       (startRecording looperW).rec_head + 1 < (startRecording looperW).buffer_length) ∧
     (1 < ([1, 2, 3] : List ℚ).length →
       (startRecording looperW).rec_head + 1 < (startRecording looperW).buffer_length →
       (feed id (startRecording looperW) [1, 2, 3]).2.getD 1 0 =
         ([1, 2, 3] : List ℚ).getD 1 0) ∧
     ((startRecording looperW).overdubbing = false → 1 < ([1, 2, 3] : List ℚ).length →
       (startRecording looperW).rec_head + 1 < (startRecording looperW).buffer_length →
       (feed id (startRecording looperW) [1, 2, 3]).1.buffer
           ((startRecording looperW).rec_head + 1) =
         ([1, 2, 3] : List ℚ).getD 1 0)) :=
  ⟨⟨by decide, by decide, by decide, by decide, by decide⟩,
   process_recording_safety id (startRecording looperW) [1, 2, 3] 11 1
     (by decide) (by decide) (by decide) (by decide) (by decide)⟩

/-- The write targets of the crossfade loop (the first 128 cells of the
region) are pairwise distinct buffer indices. -/
lemma crossfade_start_idx_inj (start cap : ℕ) (hcap : 256 ≤ cap) {i j : ℕ}
    (hi : i < 128) (hj : j < 128)
    (h : (start + i) % cap = (start + j) % cap) : i = j := by
  have h' : i ≡ j [MOD cap] := Nat.ModEq.add_left_cancel' start h
  have hi' : i % cap = i := Nat.mod_eq_of_lt (by omega)
  have hj' : j % cap = j := Nat.mod_eq_of_lt (by omega)
  unfold Nat.ModEq at h'
  omega

/-- The read sources of the crossfade loop (the last 128 cells of the
region) never coincide with its write targets, provided the region fits in
the buffer. -/
lemma crossfade_end_ne_start (start len cap : ℕ) (h1 : 256 ≤ len) (h2 : len ≤ cap)
    {i j : ℕ} (hi : i < 128) (hj : j < 128) :
    (start + len - 128 + i) % cap ≠ (start + j) % cap := by
  intro h
  have hrw : start + len - 128 + i = start + (len - 128 + i) := by omega
  rw [hrw] at h
  have h' : (len - 128 + i) ≡ j [MOD cap] := Nat.ModEq.add_left_cancel' start h
  have ha : (len - 128 + i) % cap = len - 128 + i := Nat.mod_eq_of_lt (by omega)
  have hj' : j % cap = j := Nat.mod_eq_of_lt (by omega)
  unfold Nat.ModEq at h'
  omega

/-- Characterisation of the crossfade loop after `n ≤ 128` iterations: the
first `n` region cells hold the linear blend of their original value with
the corresponding cell from the region's final 128 samples, and every other
buffer cell is untouched. -/
lemma crossfadeIter_spec (start len cap : ℕ) (b : ℕ → ℚ)
    (h1 : 256 ≤ len) (h2 : len ≤ cap) :
    ∀ n, n ≤ 128 →
      (∀ i, i < n → crossfadeIter start len cap b n ((start + i) % cap) =
        b ((start + i) % cap) * ((i : ℚ) / (CROSSFADE_SAMPLES : ℚ)) +
        b ((start + len - CROSSFADE_SAMPLES + i) % cap) *
          (1 - (i : ℚ) / (CROSSFADE_SAMPLES : ℚ))) ∧
      (∀ x, (∀ i, i < n → x ≠ (start + i) % cap) →
        crossfadeIter start len cap b n x = b x) := by
  intro n
  induction n with
  | zero =>
      intro _
      exact ⟨fun i hi => absurd hi (by omega), fun x _ => rfl⟩
  | succ n ihn =>
      intro hn
      obtain ⟨ih1, ih2⟩ := ihn (by omega)
      have hcap : 256 ≤ cap := le_trans h1 h2
      have hCF : (CROSSFADE_SAMPLES : ℕ) = 128 := rfl
      have hs : crossfadeIter start len cap b (n + 1) =
          Function.update (crossfadeIter start len cap b n) ((start + n) % cap)
            (crossfadeIter start len cap b n ((start + n) % cap) *
              ((n : ℚ) / (CROSSFADE_SAMPLES : ℚ)) +
             crossfadeIter start len cap b n ((start + len - CROSSFADE_SAMPLES + n) % cap) *
              (1 - (n : ℚ) / (CROSSFADE_SAMPLES : ℚ))) := rfl
      have hsn : crossfadeIter start len cap b n ((start + n) % cap) =
          b ((start + n) % cap) :=
        ih2 _ (fun i hi heq =>
          absurd (crossfade_start_idx_inj start cap hcap (by omega) (by omega) heq)
            (by omega))
      have hen : crossfadeIter start len cap b n
            ((start + len - CROSSFADE_SAMPLES + n) % cap) =
          b ((start + len - CROSSFADE_SAMPLES + n) % cap) :=
        ih2 _ (fun i hi heq => by
          rw [hCF] at heq
          exact crossfade_end_ne_start start len cap h1 h2 (by omega) (by omega) heq)
      constructor
      · intro i hi
        rcases Nat.lt_succ_iff_lt_or_eq.mp hi with hlt | heq
        · rw [hs]
          rw [Function.update_noteq (fun heq =>
            absurd (crossfade_start_idx_inj start cap hcap (by omega) (by omega) heq)
              (by omega))]
          exact ih1 i hlt
        · subst heq
          rw [hs, Function.update_same, hsn, hen]
      · intro x hx
        rw [hs]
        rw [Function.update_noteq (hx n (by omega))]
        exact ih2 x (fun i hi => hx i (by omega))

/-- Claim C9: if the region is shorter than twice the crossfade window
(`2 * 128` samples), `StopRecording` leaves every sample of the buffer
unchanged; otherwise (for a region that fits in the buffer) it modifies
only the first 128 buffer cells of the region, blending each with the
corresponding cell from the region's final 128 samples via a linear fade,
and leaves every other buffer sample unchanged. -/
theorem stopRecording_crossfade (st : Looper) (i : ℕ) (hi : i < 128) :
    (st.loop_length < 256 → (stopRecording st).buffer = st.buffer) ∧
    (256 ≤ st.loop_length → st.loop_length ≤ st.buffer_length →
      ((stopRecording st).buffer ((st.loop_start + i) % st.buffer_length) =
        st.buffer ((st.loop_start + i) % st.buffer_length) *
          ((i : ℚ) / (CROSSFADE_SAMPLES : ℚ)) +
        st.buffer ((st.loop_start + st.loop_length - CROSSFADE_SAMPLES + i) %
            st.buffer_length) *
          (1 - (i : ℚ) / (CROSSFADE_SAMPLES : ℚ))) ∧
      (∀ x, (∀ j, j < 128 → x ≠ (st.loop_start + j) % st.buffer_length) →
        (stopRecording st).buffer x = st.buffer x)) := by
  constructor
  · intro hshort
    have hcond : ({ st with is_recording := false } : Looper).loop_length <
        CROSSFADE_SAMPLES * 2 := by
      show st.loop_length < CROSSFADE_SAMPLES * 2
      norm_num [CROSSFADE_SAMPLES]
      omega
    simp only [stopRecording, applyCrossfade, if_pos hcond]
  · intro hlong hfit
    have hcond : ¬ (({ st with is_recording := false } : Looper).loop_length <
        CROSSFADE_SAMPLES * 2) := by
      show ¬ (st.loop_length < CROSSFADE_SAMPLES * 2)
      norm_num [CROSSFADE_SAMPLES]
      omega
    simp only [stopRecording, applyCrossfade, if_neg hcond]
    obtain ⟨hspec1, hspec2⟩ :=
      crossfadeIter_spec st.loop_start st.loop_length st.buffer_length st.buffer
        hlong hfit 128 (le_refl 128)
    exact ⟨hspec1 i hi, hspec2⟩

/-- A 256-sample region starting at 0 in a 300-sample buffer holding
`buffer n = n`: the concrete state for the C9 witness. -/
def fadeW : Looper :=
  { looperW with loop_length := 256, buffer_length := 300, buffer := fun n => (n : ℚ) }

/-- Witness for C9: the short-region branch on `looperW` (region length 5)
and the crossfade branch on `fadeW`, checked at region cell 5 and at the
untouched cell 200. -/
theorem stopRecording_crossfade_witness :
    ((5 : ℕ) < 128 ∧ looperW.loop_length < 256 ∧ 256 ≤ fadeW.loop_length ∧
      fadeW.loop_length ≤ fadeW.buffer_length) ∧
    (stopRecording looperW).buffer = looperW.buffer ∧
    (stopRecording fadeW).buffer ((fadeW.loop_start + 5) % fadeW.buffer_length) =
      fadeW.buffer ((fadeW.loop_start + 5) % fadeW.buffer_length) *
        ((5 : ℚ) / (CROSSFADE_SAMPLES : ℚ)) +
      fadeW.buffer ((fadeW.loop_start + fadeW.loop_length - CROSSFADE_SAMPLES + 5) %
          fadeW.buffer_length) * (1 - (5 : ℚ) / (CROSSFADE_SAMPLES : ℚ)) ∧
    (stopRecording fadeW).buffer 200 = fadeW.buffer 200 := by
  refine ⟨⟨by norm_num, by decide, by decide, by decide⟩, ?_, ?_, ?_⟩
  · exact (stopRecording_crossfade looperW 5 (by norm_num)).1 (by decide)
  · exact ((stopRecording_crossfade fadeW 5 (by norm_num)).2 (by decide) (by decide)).1
  · exact ((stopRecording_crossfade fadeW 5 (by norm_num)).2 (by decide) (by decide)).2
      200 (by decide)

end Sampler